import Mathlib

/-!
Verification of the daon-network/daon creator tools (bulk-import pipeline).

This file gives a shallow embedding, in Lean 4, of the two bulk-protection
scripts of the repository:

* `src/creator-tools/bulk-protection-script.py`  — embedded in namespace `Bulk`
* `src/creator-tools/simple-bulk-protector.py`   — embedded in namespace `Simple`

Pure Python functions become Lean functions; the batch-processing loop becomes
a recursive function over an explicit per-item event environment (covering the
points where a `KeyboardInterrupt` or an unexpected exception can strike);
the HTTP transport and the HTML-stripping library are modelled as oracles
(explicit function parameters), since they are external collaborators of the
repository.  `hashlib.sha256(...).hexdigest()` is embedded as a full
executable SHA-256 (FIPS 180-4) over byte lists, with 32-bit words
represented as `Nat` reduced `% 2 ^ 32`, and `str.encode('utf-8')` as an
explicit UTF-8 encoder over the string's characters.

Python-specific string semantics (`str.strip`, `str.split`, truthiness,
`dict.get`) are modelled by dedicated helpers defined below.  JSON values
(the result of `json.load`) are modelled by the inductive type `JVal`.
-/

/-! ## Python string helpers -/

/-- Whitespace characters stripped by Python's `str.strip()` (the ASCII
whitespace set; Python additionally strips rarer Unicode space characters,
which no claim exercises). -/
def pyIsSpace (c : Char) : Bool :=
  c = ' ' || c = '\t' || c = '\n' || c = '\r' || c = '\x0b' || c = '\x0c'

/-- Model of Python `s.strip()`: remove leading and trailing whitespace. -/
def pyStrip (s : String) : String :=
  String.mk (((s.data.dropWhile pyIsSpace).reverse.dropWhile pyIsSpace).reverse)

/-- Model of Python `s.endswith(c)` for a one-character suffix. -/
def pyEndsWithChar (s : String) (c : Char) : Bool :=
  s.data.getLast? == some c

/-- Model of Python `s.startswith(c)` for a one-character prefix. -/
def pyStartsWithChar (s : String) (c : Char) : Bool :=
  s.data.head? == some c

/-- Split a character list on a separator character; Python `str.split(sep)`
semantics: splitting the empty string yields one empty field. -/
def splitCharList (sep : Char) : List Char → List (List Char)
  | [] => [[]]
  | c :: rest =>
    if c = sep then
      [] :: splitCharList sep rest
    else
      match splitCharList sep rest with
      | [] => [[c]]
      | g :: gs => (c :: g) :: gs

/-- Model of Python `s.split(sep)` for a single-character separator. -/
def pySplit (s : String) (sep : Char) : List String :=
  (splitCharList sep s.data).map String.mk

/-- Helper for `pyWordCount`: count maximal non-whitespace runs. -/
def countWordsAux : List Char → Bool → Nat
  | [], _ => 0
  | c :: rest, inWord =>
    if pyIsSpace c then countWordsAux rest false
    else (if inWord then 0 else 1) + countWordsAux rest true

/-- Model of Python `len(s.split())`: the number of whitespace-separated
words of `s`. -/
def pyWordCount (s : String) : Nat :=
  countWordsAux s.data false

/-- Model of Python `Path(p).stem`: the final path component without its
suffix.  As in `pathlib`, a name has a suffix only when its last dot is
neither its first nor its last character (`.bashrc` and `file.` keep their
full name). -/
def pathStem (p : String) : String :=
  let name := ((pySplit p '/').reverse).headD ""
  let cs := name.data
  match cs.reverse.findIdx? (fun c => c = '.') with
  | none => name
  | some k =>
    let i := cs.length - 1 - k
    if 0 < i ∧ i < cs.length - 1 then String.mk (cs.take i) else name

/-! ## UTF-8 encoding (model of Python `str.encode('utf-8')`) -/

/-- UTF-8 encoding of one Unicode code point, as a list of byte values. -/
def utf8CharBytes (n : Nat) : List Nat :=
  if n < 128 then [n]
  else if n < 2048 then [192 + n / 64, 128 + n % 64]
  else if n < 65536 then [224 + n / 4096, 128 + n / 64 % 64, 128 + n % 64]
  else [240 + n / 262144, 128 + n / 4096 % 64, 128 + n / 64 % 64, 128 + n % 64]

/-- UTF-8 encoding of a string, as a list of byte values. -/
def utf8Encode (s : String) : List Nat :=
  (s.data.map (fun c => utf8CharBytes c.toNat)).flatten

/-! ## SHA-256 (model of Python `hashlib.sha256(...).hexdigest()`) -/

/-- Reduce to a 32-bit word. -/
def w32 (n : Nat) : Nat := n % 4294967296

/-- Right-rotation of a 32-bit word by `k` bits. -/
def rotr (k n : Nat) : Nat := (n % 2 ^ k) * 2 ^ (32 - k) + n / 2 ^ k

/-- SHA-256 round constants. -/
def sha256K : List Nat :=
  [1116352408, 1899447441, 3049323471, 3921009573, 961987163,
   1508970993, 2453635748, 2870763221, 3624381080, 310598401,
   607225278, 1426881987, 1925078388, 2162078206, 2614888103,
   3248222580, 3835390401, 4022224774, 264347078, 604807628,
   770255983, 1249150122, 1555081692, 1996064986, 2554220882,
   2821834349, 2952996808, 3210313671, 3336571891, 3584528711,
   113926993, 338241895, 666307205, 773529912, 1294757372,
   1396182291, 1695183700, 1986661051, 2177026350, 2456956037,
   2730485921, 2820302411, 3259730800, 3345764771, 3516065817,
   3600352804, 4094571909, 275423344, 430227734, 506948616,
   659060556, 883997877, 958139571, 1322822218, 1537002063,
   1747873779, 1955562222, 2024104815, 2227730452, 2361852424,
   2428436474, 2756734187, 3204031479, 3329325298]

/-- SHA-256 initial hash value. -/
def sha256H0 : List Nat :=
  [1779033703, 3144134277, 1013904242, 2773480762,
   1359893119, 2600822924, 528734635, 1541459225]

def bigSigma0 (x : Nat) : Nat := rotr 2 x ^^^ rotr 13 x ^^^ rotr 22 x
def bigSigma1 (x : Nat) : Nat := rotr 6 x ^^^ rotr 11 x ^^^ rotr 25 x
def smallSigma0 (x : Nat) : Nat := rotr 7 x ^^^ rotr 18 x ^^^ x / 2 ^ 3
def smallSigma1 (x : Nat) : Nat := rotr 17 x ^^^ rotr 19 x ^^^ x / 2 ^ 10
def shaCh (x y z : Nat) : Nat := (x &&& y) ^^^ ((x ^^^ 4294967295) &&& z)
def shaMaj (x y z : Nat) : Nat := (x &&& y) ^^^ (x &&& z) ^^^ (y &&& z)

/-- SHA-256 message padding: append `0x80`, zeros and the 64-bit big-endian
bit length, to a multiple of 64 bytes. -/
def sha256Pad (msg : List Nat) : List Nat :=
  let L := msg.length
  let zeros := (64 - (L + 9) % 64) % 64
  msg ++ 128 :: List.replicate zeros 0 ++
    ([56, 48, 40, 32, 24, 16, 8, 0].map (fun s => (8 * L) / 2 ^ s % 256))

/-- Split a byte list into 64-byte blocks. -/
def toBlocks (l : List Nat) : List (List Nat) :=
  if h : l = [] then []
  else l.take 64 :: toBlocks (l.drop 64)
termination_by l.length
decreasing_by
  simp [List.length_drop]
  exact List.length_pos.mpr h

/-- Group bytes four at a time into big-endian 32-bit words. -/
def bytesToWords : List Nat → List Nat
  | b0 :: b1 :: b2 :: b3 :: rest =>
    (b0 * 16777216 + b1 * 65536 + b2 * 256 + b3) :: bytesToWords rest
  | _ => []

/-- Extend the 16-word message schedule by `fuel` further words. -/
def extendSchedule (ws : List Nat) : Nat → List Nat
  | 0 => ws
  | fuel + 1 =>
    let n := ws.length
    extendSchedule
      (ws ++ [w32 (smallSigma1 (ws.getD (n - 2) 0) + ws.getD (n - 7) 0 +
                   smallSigma0 (ws.getD (n - 15) 0) + ws.getD (n - 16) 0)])
      fuel

/-- One SHA-256 round: update the eight working variables. -/
def sha256Round (st : List Nat) (kw : Nat × Nat) : List Nat :=
  let a := st.getD 0 0
  let b := st.getD 1 0
  let c := st.getD 2 0
  let d := st.getD 3 0
  let e := st.getD 4 0
  let f := st.getD 5 0
  let g := st.getD 6 0
  let h := st.getD 7 0
  let t1 := w32 (h + bigSigma1 e + shaCh e f g + kw.1 + kw.2)
  let t2 := w32 (bigSigma0 a + shaMaj a b c)
  [w32 (t1 + t2), a, b, c, w32 (d + t1), e, f, g]

/-- SHA-256 compression of one 64-byte block into the running hash. -/
def sha256Compress (h : List Nat) (block : List Nat) : List Nat :=
  let ws := extendSchedule (bytesToWords block) 48
  let fin := (sha256K.zip ws).foldl sha256Round h
  [w32 (h.getD 0 0 + fin.getD 0 0), w32 (h.getD 1 0 + fin.getD 1 0),
   w32 (h.getD 2 0 + fin.getD 2 0), w32 (h.getD 3 0 + fin.getD 3 0),
   w32 (h.getD 4 0 + fin.getD 4 0), w32 (h.getD 5 0 + fin.getD 5 0),
   w32 (h.getD 6 0 + fin.getD 6 0), w32 (h.getD 7 0 + fin.getD 7 0)]

/-- SHA-256 digest of a byte list, as eight 32-bit words. -/
def sha256Words (msg : List Nat) : List Nat :=
  (toBlocks (sha256Pad msg)).foldl sha256Compress sha256H0

/-- Lowercase hexadecimal digit characters. -/
def hexChars : List Char :=
  "0123456789abcdef".data

/-- Lowercase hexadecimal digit for a nibble. -/
def hexDigitChar (n : Nat) : Char := hexChars.getD n '0'

/-- Eight lowercase hexadecimal characters of one 32-bit word (big-endian). -/
def hexWordChars (w : Nat) : List Char :=
  [hexDigitChar (w / 2 ^ 28 % 16), hexDigitChar (w / 2 ^ 24 % 16),
   hexDigitChar (w / 2 ^ 20 % 16), hexDigitChar (w / 2 ^ 16 % 16),
   hexDigitChar (w / 2 ^ 12 % 16), hexDigitChar (w / 2 ^ 8 % 16),
   hexDigitChar (w / 2 ^ 4 % 16), hexDigitChar (w % 16)]

/-- Model of Python `hashlib.sha256(msg).hexdigest()`: the lowercase
hexadecimal digest of a byte list. -/
def sha256hex (msg : List Nat) : String :=
  String.mk (((sha256Words msg).map hexWordChars).flatten)

/-! ## JSON values (the result of Python `json.load`) -/

/-- JSON value, as produced by `json.load`.  Numbers are modelled as
integers; no claim involves fractional values. -/
inductive JVal where
  | null
  | bool (b : Bool)
  | num (n : Int)
  | str (s : String)
  | arr (l : List JVal)
  | obj (kvs : List (String × JVal))
deriving BEq, Repr

/-- Python truthiness of a JSON value (`if value:`). -/
def jTruthy : JVal → Bool
  | .null => false
  | .bool b => b
  | .num n => n ≠ 0
  | .str s => s ≠ ""
  | .arr l => !l.isEmpty
  | .obj kvs => !kvs.isEmpty

/-- Lookup of a key in a JSON object's field list (`d[k]` / `d.get(k)`). -/
def jLookup (kvs : List (String × JVal)) (k : String) : Option JVal :=
  (kvs.find? (fun p => p.1 = k)).map Prod.snd

/-- Model of Python `d.get(k, default)`. -/
def jGetD (kvs : List (String × JVal)) (k : String) (d : JVal) : JVal :=
  (jLookup kvs k).getD d

/-- Model of Python `str(value)` for scalar JSON values.  The textual form
of containers is abbreviated: no claim inspects the stringification of a
list or object. -/
def jStr : JVal → String
  | .null => "None"
  | .bool true => "True"
  | .bool false => "False"
  | .num n => toString n
  | .str s => s
  | .arr _ => "[...]"
  | .obj _ => "{...}"

/-- Model of Python iteration `for x in value`: lists yield their elements,
strings their characters, dicts their keys; other values are not iterable
(`none` = a `TypeError` is raised). -/
def jIter : JVal → Option (List JVal)
  | .arr l => some l
  | .str s => some (s.data.map (fun c => .str (String.mk [c])))
  | .obj kvs => some (kvs.map (fun p => .str p.1))
  | _ => none

/-- Elements of a JSON value when it is a list or a string (the two cases in
which Python `a + b` of two same-typed values concatenates); `none` models a
raised `TypeError`. -/
def jStrList : JVal → List String
  | .arr l => l.map jStr
  | .str s => s.data.map (fun c => String.mk [c])
  | _ => []

/-! ## Submission outcomes and the transport boundary -/

/-- Result dictionary of a submission attempt: the shape returned by
`simulate_protection` / `protect_work` and by the remote API contract
(`{success, content_hash, tx_hash, verification_url, error}`, plus the
`simulated` marker set by the dry-run path).  Absent keys are `none`. -/
structure ApiResult where
  success : Bool
  content_hash : Option String
  tx_hash : Option String
  verification_url : Option String
  simulated : Bool
  error : Option String
deriving BEq, Repr, DecidableEq

/-- Parse of an HTTP response body: either the JSON decode raises
(`malformed`, a `ValueError` whose text is carried) or it yields a result
dictionary of the contract shape. -/
inductive BodyResult where
  | malformed (msg : String)
  | parsed (r : ApiResult)
deriving Repr, DecidableEq

/-- Observable behaviour of one HTTP POST at the transport boundary:
either the transport raises (connection error, timeout, ...; the exception
text is carried), or a response with a status code and a body arrives. -/
inductive TransportResult where
  | exn (msg : String)
  | resp (status : Nat) (body : BodyResult)
deriving Repr, DecidableEq

/-- Failure outcome dictionary `{'success': False, 'error': str(e)}` built
by the `except` clause of `protect_work` in both scripts. -/
def failResult (msg : String) : ApiResult :=
  { success := false, content_hash := none, tx_hash := none,
    verification_url := none, simulated := false, error := some msg }

/-! ## The batch-processing loop

Both scripts' `process_works` methods have identical control flow; the loop
is defined once, generically in the work type and the two submission
functions, and instantiated per script.  Per-item nondeterminism (where a
`KeyboardInterrupt` strikes, or an unexpected exception escaping the
submission call — e.g. a parsed response body that is not a mapping with a
`success` key, raising in `result['success']`) is supplied by an explicit
event environment indexed by the item's position.  Interrupts are modelled
at the blocking points of an iteration: before the item's outcome is
recorded (the pre-submission sleep, the network wait, the classification)
and during the rate-limit sleep that follows the recording. -/

/-- Event environment entry for one batch item. -/
inductive ItemEvent where
  | interruptBefore
  | raiseExn
  | normal (time : Nat) (interruptAfter : Bool)
deriving Repr, DecidableEq

/-- Batch state: the counters and the ordered result log of the tool
object (`protected_count`, `error_count`, `results`). -/
structure BatchState (W : Type) where
  protected_count : Nat
  error_count : Nat
  results : List (W × ApiResult)
deriving Repr

/-- One run of the `for` loop of `process_works`, starting at item index
`i` with state `st`.  `submit_sim i w` is the dry-run submission of work
`w` as item `i` (`simulate_protection`), `submit_live i w` the live one
(`protect_work` applied to the item's transport behaviour). -/
def processGo {W : Type} (dry_run : Bool)
    (submit_sim : Nat → W → ApiResult) (submit_live : Nat → W → ApiResult)
    (env : Nat → ItemEvent) : Nat → List W → BatchState W → BatchState W
  | _, [], st => st
  | i, w :: rest, st =>
    match env i with
    | .interruptBefore => st
    | .raiseExn =>
      processGo dry_run submit_sim submit_live env (i + 1) rest
        { st with error_count := st.error_count + 1 }
    | .normal _ interruptAfter =>
      let result := if dry_run then submit_sim i w else submit_live i w
      let st' :=
        if result.success then
          { st with protected_count := st.protected_count + 1 }
        else
          { st with error_count := st.error_count + 1 }
      let st'' := { st' with results := st'.results ++ [(w, result)] }
      if interruptAfter then st''
      else processGo dry_run submit_sim submit_live env (i + 1) rest st''

/-! ## The full tool (`bulk-protection-script.py`) -/

namespace Bulk

/-- The `Work` dataclass of the full tool, after `__post_init__` has run.
The container fields hold the stringified elements of the source values; no
claim inspects them.  `word_count` is always derived (no call site passes
it explicitly), so it is stored as `Nat`. -/
structure Work where
  title : String
  content : String
  author : Option String := none
  url : Option String := none
  published_date : Option String := none
  tags : List String := []
  fandoms : List String := []
  characters : List String := []
  word_count : Nat := 0
  source_platform : Option String := none
  original_id : Option String := none
deriving Repr, DecidableEq

/-- Work construction including `__post_init__`: `word_count`, when not
supplied (no call site supplies it), is `len(content.split())`. -/
def mkWork (title content : String) (author url published_date : Option String)
    (tags fandoms characters : List String)
    (source_platform original_id : Option String) : Work :=
  { title := title, content := content, author := author, url := url,
    published_date := published_date, tags := tags, fandoms := fandoms,
    characters := characters, word_count := pyWordCount content,
    source_platform := source_platform, original_id := original_id }

/-- Validator `is_valid_work` of the full tool: reject empty title or
content, stripped content shorter than 100 characters, or content longer
than 10 MiB. -/
def is_valid_work (w : Work) : Bool :=
  if w.title = "" || w.content = "" then false
  else if (pyStrip w.content).length < 100 then false
  else if w.content.length > 10 * 1024 * 1024 then false
  else true

/-- Content extraction `extract_ao3_content`: first truthy field among
`content`, `body`, `text`, `chapters`, `summary`; a list value is joined
with blank lines; the result is stringified (no strip). -/
def extract_ao3_content (kvs : List (String × JVal)) : String :=
  match ["content", "body", "text", "chapters", "summary"].find?
      (fun f => jTruthy (jGetD kvs f .null)) with
  | some f =>
    match jGetD kvs f .null with
    | .arr chapters => String.intercalate "\n\n" (chapters.map jStr)
    | v => jStr v
  | none => ""

/-- Author extraction `extract_ao3_author`: first truthy field among
`author`, `authors`, `creator`, `creators`; list values joined with
`", "`. -/
def extract_ao3_author (kvs : List (String × JVal)) : Option String :=
  match ["author", "authors", "creator", "creators"].find?
      (fun f => jTruthy (jGetD kvs f .null)) with
  | some f =>
    match jGetD kvs f .null with
    | .arr authors => some (String.intercalate ", " (authors.map jStr))
    | v => some (jStr v)
  | none => none

/-- Model of Python `a.get(k) or a.get(k')`: the first truthy candidate
field, stringified, else `None`. -/
def pickTruthy (kvs : List (String × JVal)) (fields : List String) :
    Option String :=
  match fields.find? (fun f => jTruthy (jGetD kvs f .null)) with
  | some f => some (jStr (jGetD kvs f .null))
  | none => none

/-- Per-record body of the `for work_data in work_list` loop of
`parse_ao3_export` (the `try` block up to the `Work(...)` construction);
`none` models an exception (the record is skipped).  A non-object record
raises `AttributeError` at the first `.get`.  The `tags` concatenation
`get('tags', []) + get('additional_tags', [])` succeeds when both values
are lists or both strings (concatenation) or both numbers/booleans
(numeric addition, whose sum is stored raw and read by no claim), and
raises — skipping the record — otherwise.  A falsy title value (`None`,
`False`, `0`, empty containers) is represented as `""`, so the
validator's emptiness test mirrors Python's `not work.title`. -/
def parse_ao3_record (rec : JVal) : Option Work :=
  match rec with
  | .obj kvs =>
    let tagsV := jGetD kvs "tags" (.arr [])
    let addV := jGetD kvs "additional_tags" (.arr [])
    let tags? : Option (List String) :=
      match tagsV, addV with
      | .arr a, .arr b => some ((a ++ b).map jStr)
      | .str a, .str b => some ((a ++ b).data.map (fun c => String.mk [c]))
      | .num _, .num _ => some []
      | .bool _, .bool _ => some []
      | _, _ => none
    match tags? with
    | none => none
    | some tags =>
      some (mkWork
        (if jTruthy (jGetD kvs "title" (.str "Untitled")) then
          jStr (jGetD kvs "title" (.str "Untitled"))
        else "")
        (extract_ao3_content kvs)
        (extract_ao3_author kvs)
        (pickTruthy kvs ["url", "link"])
        (pickTruthy kvs ["published", "date"])
        tags
        (jStrList (jGetD kvs "fandoms" (.arr [])))
        (jStrList (jGetD kvs "characters" (.arr [])))
        (some "ao3")
        (some (jStr (jGetD kvs "id" (.str "")))))
  | _ => none

/-- Record loop of `parse_ao3_export`: per-record failures are skipped, a
constructed work is kept only when `is_valid_work` holds. -/
def parse_ao3_records (l : List JVal) : List Work :=
  l.filterMap (fun rec =>
    (parse_ao3_record rec).bind (fun w =>
      if is_valid_work w then some w else none))

/-- Parser `parse_ao3_export`, applied to the already-loaded JSON value.
Top-level dispatch of the source: a list is used directly; a dict is
consulted for a `works` key (iterating a non-iterable value raises at the
`for` statement, caught by the outer handler, yielding `[]`); any other
top level yields `[]` — for a string, `'works' in data` either fails the
substring test (unrecognized format) or `data['works']` raises `TypeError`,
and for other scalars the `in` test itself raises; every such path returns
zero works. -/
def parse_ao3_export (data : JVal) : List Work :=
  match data with
  | .arr l => parse_ao3_records l
  | .obj kvs =>
    match jLookup kvs "works" with
    | some v =>
      match jIter v with
      | some l => parse_ao3_records l
      | none => []
    | none => []
  | _ => []

/-! ### WordPress WXR parsing -/

/-- One `<item>` element of a WXR export, as seen through the lookups that
`parse_wordpress_export` performs.  Outer `Option` = element presence
(`find` returning `None`), inner `Option` = the element's text (which is
`None` for an empty element).  `categories` carries each `<category>`'s
`domain` attribute (`get('domain', '')`) and text. -/
structure WpItem where
  post_type : Option (Option String) := none
  status : Option (Option String) := none
  title : Option (Option String) := none
  content_encoded : Option (Option String) := none
  dc_creator : Option (Option String) := none
  pubDate : Option (Option String) := none
  link : Option (Option String) := none
  post_id : Option (Option String) := none
  categories : List (String × Option String) := []
deriving Repr, DecidableEq

/-- Outcome of one iteration of the item loop of
`parse_wordpress_export`. -/
inductive WpStep where
  | filtered
  | errored
  | invalid
  | ok (w : Work)
deriving Repr, DecidableEq

/-- Skip condition on the post type: the element is present and its text is
not `post` or `page` (`post_type.text not in ['post', 'page']`; a `None`
text is likewise not in the list). -/
def wpBadType (it : WpItem) : Bool :=
  match it.post_type with
  | some txt => !(txt = some "post" || txt = some "page")
  | none => false

/-- Skip condition on the status: the element is present and its text is
not `publish`. -/
def wpBadStatus (it : WpItem) : Bool :=
  match it.status with
  | some txt => txt ≠ some "publish"
  | none => false

/-- Body of the `for item in root.findall('.//item')` loop of
`parse_wordpress_export`.  `strip_html` models `BeautifulSoup(...)
.get_text()`.  A missing `<title>` raises (`item.find('title').text` on
`None`); a present `<content:encoded>` with `None` text makes
`Work.__post_init__` raise on `content.split()`.  A `<category>` with
`None` text contributes an empty tag entry in this model (the source
stores the raw `None`; no claim inspects tags). -/
def wp_item_step (strip_html : String → String) (it : WpItem) : WpStep :=
  if wpBadType it then .filtered
  else if wpBadStatus it then .filtered
  else
    match it.title with
    | none => .errored
    | some titleTxt =>
      let title := match titleTxt with
        | some t => if t = "" then "Untitled" else t
        | none => "Untitled"
      match it.content_encoded with
      | some none => .errored
      | contentElem =>
        let content0 := match contentElem with
          | some (some c) => c
          | _ => ""
        let content := if content0 = "" then content0 else strip_html content0
        let tags := (it.categories.filter (fun p => p.1 = "post_tag")).map
          (fun p => (p.2.getD ""))
        let cats := (it.categories.filter (fun p => p.1 = "category")).map
          (fun p => (p.2.getD ""))
        let w := mkWork title content (it.dc_creator.join) (it.link.join)
          (it.pubDate.join) (tags ++ cats) [] [] (some "wordpress")
          (it.post_id.join)
        if is_valid_work w then .ok w else .invalid

/-- Parser `parse_wordpress_export` over the item list of the document (the
namespaced lookup path; in the fall-back no-namespace mode every item's
lookup raises and the parser returns zero works). -/
def parse_wordpress_export (strip_html : String → String)
    (items : List WpItem) : List Work :=
  items.filterMap (fun it =>
    match wp_item_step strip_html it with
    | .ok w => some w
    | _ => none)

/-! ### URL-list parsing -/

/-- Observable events of the URL-list parser: issuing a fetch for a URL
(the network request inside `scrape_url`) and the fixed one-second
`time.sleep(1)`. -/
inductive UrlEv where
  | fetch (url : String)
  | sleep
deriving Repr, DecidableEq

/-- Behaviour of `scrape_url` for one URL: it either raises (any failure is
re-raised as `Exception(f"Failed to scrape ...")`) or returns a `Work`. -/
inductive ScrapeResult where
  | err (msg : String)
  | ok (w : Work)
deriving Repr, DecidableEq

/-- Loop of `parse_url_list` over the filtered URL list, also returning the
event trace.  On a scrape exception the `except` branch executes `continue`,
which skips the `time.sleep(1)` line. -/
def parse_url_list_go (scrape : Nat → ScrapeResult) :
    Nat → List String → List Work × List UrlEv
  | _, [] => ([], [])
  | i, url :: rest =>
    match scrape i with
    | .err _ =>
      ((parse_url_list_go scrape (i + 1) rest).1,
       UrlEv.fetch url :: (parse_url_list_go scrape (i + 1) rest).2)
    | .ok w =>
      (if is_valid_work w then
         w :: (parse_url_list_go scrape (i + 1) rest).1
       else (parse_url_list_go scrape (i + 1) rest).1,
       UrlEv.fetch url :: UrlEv.sleep ::
         (parse_url_list_go scrape (i + 1) rest).2)

/-- Line filter of `parse_url_list`: keep lines whose stripped form is
non-empty and which do not start with `#` (the `startswith` test runs on
the unstripped line), then use the stripped form. -/
def url_list_lines (lines : List String) : List String :=
  (lines.filter (fun l => pyStrip l ≠ "" && !pyStartsWithChar l '#')).map pyStrip

/-- Parser `parse_url_list`: works and the event trace of the run. -/
def parse_url_list (scrape : Nat → ScrapeResult) (lines : List String) :
    List Work × List UrlEv :=
  parse_url_list_go scrape 0 (url_list_lines lines)

/-! ### File-directory parsing -/

/-- Body of the per-file loop of `parse_file_directory`, for one file given
as its path and its full text (file enumeration and read failures are
outside the model: a file whose read raises is simply absent from the input
list).  The first line's stripped form becomes the title when shorter than
100 characters, else the filename stem; the title line is removed from the
content when it equals the chosen title. -/
def parse_directory_file (path text : String) : Option Work :=
  let lines := pySplit text '\n'
  let firstStripped := pyStrip (lines.headD "")
  let title := if firstStripped.length < 100 then firstStripped
               else pathStem path
  let content := if firstStripped = title then
                   pyStrip (String.intercalate "\n" lines.tail)
                 else text
  let w := mkWork title content none none none [] [] [] (some "file")
    (some path)
  if is_valid_work w then some w else none

/-- Parser `parse_file_directory` over the enumerated files. -/
def parse_file_directory (files : List (String × String)) : List Work :=
  files.filterMap (fun pr => parse_directory_file pr.1 pr.2)

/-! ### Submission -/

/-- Dry-run submission `simulate_protection`: hash the content (UTF-8
bytes, `"sha256:"` prefix), fabricate a success with a time-derived
simulated transaction id. -/
def simulate_protection (w : Work) (_license_type : String) (time : Nat) :
    ApiResult :=
  { success := true,
    content_hash := some ("sha256:" ++ sha256hex (utf8Encode w.content)),
    tx_hash := some ("sim-" ++ toString time),
    verification_url := some ("https://verify.daon.network/sha256:" ++
      sha256hex (utf8Encode w.content)),
    simulated := true,
    error := none }

/-- The JSON payload POSTed by `protect_work`. -/
structure ProtectPayload where
  content_hash : String
  creator : String
  license : String
  platform : String
  meta_title : String
  meta_author : Option String
  meta_word_count : Nat
  meta_url : Option String
  meta_published_date : Option String
  meta_tags : List String
  meta_fandoms : List String
  meta_characters : List String
  meta_original_id : Option String
deriving Repr, DecidableEq

/-- Payload construction of `protect_work`. -/
def protect_payload (w : Work) (license_type : String) : ProtectPayload :=
  { content_hash := "sha256:" ++ sha256hex (utf8Encode w.content),
    creator := "bulk-protection-tool",
    license := license_type,
    platform := w.source_platform.getD "bulk-import",
    meta_title := w.title,
    meta_author := w.author,
    meta_word_count := w.word_count,
    meta_url := w.url,
    meta_published_date := w.published_date,
    meta_tags := w.tags,
    meta_fandoms := w.fandoms,
    meta_characters := w.characters,
    meta_original_id := w.original_id }

/-- Live submission `protect_work`: build the payload, POST it, and convert
every failure into a returned outcome.  The whole body sits in a
`try`/`except Exception` whose handler returns
`{'success': False, 'error': str(e)}`, so nothing propagates; the
transport's behaviour is the oracle `tr` applied to the payload.
`raise_for_status` raises `HTTPError` exactly for 4xx/5xx statuses
(modelled with exception text `"HTTP " ++ status`); any other surfaced
status — the `requests` library normally resolves redirects before this
point, but e.g. a 304 or an unresolvable 3xx reaches it — proceeds to
`response.json()`, whose `ValueError` text on a malformed body is carried
by the `BodyResult` and whose parsed value is returned verbatim. -/
def protect_work (w : Work) (license_type : String)
    (tr : ProtectPayload → TransportResult) : ApiResult :=
  match tr (protect_payload w license_type) with
  | .exn m => failResult m
  | .resp status body =>
    if 400 ≤ status && status < 600 then
      failResult ("HTTP " ++ toString status)
    else
      match body with
      | .malformed m => failResult m
      | .parsed r => r

/-- Batch loop `process_works` of the full tool: the generic loop
instantiated with this tool's submission paths.  `timeO i` is the value of
`time.time()` at item `i` in dry-run mode; `net i` the transport behaviour
of item `i`'s POST. -/
def process_works (dry_run : Bool) (license_type : String)
    (timeO : Nat → Nat) (net : Nat → ProtectPayload → TransportResult)
    (env : Nat → ItemEvent) (works : List Work) : BatchState Work :=
  processGo dry_run
    (fun i w => simulate_protection w license_type (timeO i))
    (fun i w => protect_work w license_type (net i))
    env 0 works ⟨0, 0, []⟩

end Bulk

/-! ## The lightweight tool (`simple-bulk-protector.py`) -/

namespace Simple

/-- The `Work` dataclass of the lightweight tool, after `__post_init__`:
`author` defaults to `"Unknown"`, `word_count` (never passed explicitly by
a call site) is `len(content.split())`. -/
structure Work where
  title : String
  content : String
  author : String := "Unknown"
  word_count : Nat := 0
  source_file : String := ""
deriving Repr, DecidableEq

/-- Work construction including `__post_init__`. -/
def mkWork (title content author source_file : String) : Work :=
  { title := title, content := content, author := author,
    word_count := pyWordCount content, source_file := source_file }

/-- Content extraction `extract_content`: first truthy field among
`content`, `body`, `text`, `chapters`, `story`; list values joined with
blank lines; the result is stringified and stripped. -/
def extract_content (kvs : List (String × JVal)) : String :=
  match ["content", "body", "text", "chapters", "story"].find?
      (fun f => jTruthy (jGetD kvs f .null)) with
  | some f =>
    match jGetD kvs f .null with
    | .arr parts => pyStrip (String.intercalate "\n\n" (parts.map jStr))
    | v => pyStrip (jStr v)
  | none => ""

/-- Author extraction `extract_author`: first truthy field among `author`,
`authors`, `creator`, `user`, `by`; list values joined with `", "`;
default `"Unknown"`. -/
def extract_author (kvs : List (String × JVal)) : String :=
  match ["author", "authors", "creator", "user", "by"].find?
      (fun f => jTruthy (jGetD kvs f .null)) with
  | some f =>
    match jGetD kvs f .null with
    | .arr authors => String.intercalate ", " (authors.map jStr)
    | v => jStr v
  | none => "Unknown"

/-- Acceptance gate of the record loop of `parse_json_export`:
`if content and len(content.strip()) > 50`. -/
def content_gate (content : String) : Bool :=
  content ≠ "" && (pyStrip content).length > 50

/-- Per-record body of the loop of `parse_json_export`; `none` models an
exception (skipped record, e.g. a non-object record raising at `.get`) or
a record failing the acceptance gate. -/
def parse_json_record (file_path : String) (rec : JVal) : Option Work :=
  match rec with
  | .obj kvs =>
    let title := jStr (jGetD kvs "title" (.str "Untitled"))
    let content := extract_content kvs
    let author := extract_author kvs
    if content_gate content then
      some (mkWork title content author file_path)
    else none
  | _ => none

/-- Parser `parse_json_export`, applied to the already-loaded JSON value.
Top-level dispatch: a list is used directly; a dict with a `works` key
iterates that value (iterating a non-iterable raises at the `for`
statement, caught by the outer handler, yielding `[]`); any other value —
including a dict without a `works` key — is wrapped as a single-record
list `[data]`. -/
def parse_json_export (file_path : String) (data : JVal) : List Work :=
  let records : Option (List JVal) :=
    match data with
    | .arr l => some l
    | .obj kvs =>
      if (jLookup kvs "works").isSome then jIter (jGetD kvs "works" .null)
      else some [data]
    | v => some [v]
  match records with
  | some l => l.filterMap (parse_json_record file_path)
  | none => []

/-- Parser `parse_single_file` for one text/markdown file, given the file's
path and its full text.  The 50-character minimum is checked on the
stripped file text; afterwards a first line shorter than 100 characters
not ending in `.` is treated as a title and removed from the content. -/
def parse_single_file (file_path text : String) : Option Work :=
  let content := pyStrip text
  if content.length < 50 then none
  else
    let lines := pySplit content '\n'
    let first_line := pyStrip (lines.headD "")
    if first_line.length < 100 && !pyEndsWithChar first_line '.' then
      some (mkWork first_line (pyStrip (String.intercalate "\n" lines.tail))
        "Unknown" file_path)
    else
      some (mkWork (pathStem file_path) content "Unknown" file_path)

/-- Parser `parse_directory`: `parse_single_file` over every enumerated
text file (given as path/text pairs; read failures yield `None` from
`parse_single_file` in the source and are likewise dropped here). -/
def parse_directory (files : List (String × String)) : List Work :=
  files.filterMap (fun pr => parse_single_file pr.1 pr.2)

/-- Dry-run submission `simulate_protection` of the lightweight tool
(no `verification_url` key). -/
def simulate_protection (w : Work) (_license_type : String) (time : Nat) :
    ApiResult :=
  { success := true,
    content_hash := some ("sha256:" ++ sha256hex (utf8Encode w.content)),
    tx_hash := some ("sim-" ++ toString time),
    verification_url := none,
    simulated := true,
    error := none }

/-- The JSON payload POSTed by the lightweight `protect_work`. -/
structure ProtectPayload where
  content_hash : String
  creator : String
  license : String
  platform : String
  meta_title : String
  meta_author : String
  meta_word_count : Nat
  meta_source_file : String
deriving Repr, DecidableEq

/-- Payload construction of the lightweight `protect_work`. -/
def protect_payload (w : Work) (license_type : String) : ProtectPayload :=
  { content_hash := "sha256:" ++ sha256hex (utf8Encode w.content),
    creator := "bulk-protection-user",
    license := license_type,
    platform := "bulk-import",
    meta_title := w.title,
    meta_author := w.author,
    meta_word_count := w.word_count,
    meta_source_file := w.source_file }

/-- Live submission `protect_work` of the lightweight tool: the whole body
sits in a `try`/`except Exception` returning
`{'success': False, 'error': str(e)}`.  `urllib.request.urlopen` raises
`HTTPError` for a status outside 2xx (redirects are resolved by its
handlers), modelled with exception text `"HTTP " ++ status`; a body whose
JSON decode raises carries the `ValueError` text. -/
def protect_work (w : Work) (license_type : String)
    (tr : ProtectPayload → TransportResult) : ApiResult :=
  match tr (protect_payload w license_type) with
  | .exn m => failResult m
  | .resp status body =>
    if status < 200 || 300 ≤ status then
      failResult ("HTTP " ++ toString status)
    else
      match body with
      | .malformed m => failResult m
      | .parsed r => r

/-- Batch loop `process_works` of the lightweight tool (control flow
identical to the full tool's). -/
def process_works (dry_run : Bool) (license_type : String)
    (timeO : Nat → Nat) (net : Nat → ProtectPayload → TransportResult)
    (env : Nat → ItemEvent) (works : List Work) : BatchState Work :=
  processGo dry_run
    (fun i w => simulate_protection w license_type (timeO i))
    (fun i w => protect_work w license_type (net i))
    env 0 works ⟨0, 0, []⟩

end Simple

/-! ## Derived definitions used by the verification -/

/-- Valid content-hash format: the `"sha256:"` prefix followed by 64
lowercase hexadecimal characters. -/
def validHashFormat (s : String) : Prop :=
  ∃ t : String, s = "sha256:" ++ t ∧ t.length = 64 ∧
    ∀ c ∈ t.data, c ∈ hexChars

/-- Event predicate: a normal iteration with no interrupt. -/
def noInterruptNormal : ItemEvent → Bool
  | .normal _ false => true
  | _ => false

/-- Outcomes recorded by an uninterrupted run of the loop over `ws`
starting at item index `i`. -/
def recordedFrom {W : Type} (dry_run : Bool)
    (submit_sim submit_live : Nat → W → ApiResult) :
    Nat → List W → List (W × ApiResult)
  | _, [] => []
  | i, w :: rest =>
    (w, if dry_run then submit_sim i w else submit_live i w) ::
      recordedFrom dry_run submit_sim submit_live (i + 1) rest

/-- Trace predicate: between any two consecutive fetch events there is at
least one other event (the sleep), i.e. no fetch immediately follows
another fetch. -/
def noAdjacentFetches : List Bulk.UrlEv → Bool
  | .fetch _ :: .fetch _ :: _ => false
  | _ :: rest => noAdjacentFetches rest
  | [] => true


/-! ## Hash-format lemmas -/

theorem sha256Compress_length (h b : List Nat) :
    (sha256Compress h b).length = 8 := rfl

theorem foldl_sha256Compress_length :
    ∀ (bs : List (List Nat)) (h : List Nat), h.length = 8 →
      (bs.foldl sha256Compress h).length = 8
  | [], _, hh => hh
  | b :: bs, h, _ =>
    foldl_sha256Compress_length bs (sha256Compress h b)
      (sha256Compress_length h b)

theorem sha256Words_length (msg : List Nat) : (sha256Words msg).length = 8 :=
  foldl_sha256Compress_length _ _ rfl

theorem hexWordChars_length (w : Nat) : (hexWordChars w).length = 8 := rfl

theorem hexDigitChar_mem_of_lt {n : Nat} (h : n < 16) :
    hexDigitChar n ∈ hexChars := by
  interval_cases n <;> decide

theorem mem_hexChars_of_mem_hexWordChars {w : Nat} {c : Char}
    (hc : c ∈ hexWordChars w) : c ∈ hexChars := by
  simp only [hexWordChars, List.mem_cons, List.not_mem_nil, or_false] at hc
  rcases hc with h | h | h | h | h | h | h | h <;> subst h <;>
    exact hexDigitChar_mem_of_lt (Nat.mod_lt _ (by decide))

theorem flatten_hexWordChars_length :
    ∀ ws : List Nat, ((ws.map hexWordChars).flatten).length = 8 * ws.length
  | [] => rfl
  | w :: ws => by
    simp only [List.map_cons, List.flatten_cons, List.length_append,
      hexWordChars_length, flatten_hexWordChars_length ws, List.length_cons]
    omega

theorem sha256hex_length (msg : List Nat) : (sha256hex msg).length = 64 := by
  show (((sha256Words msg).map hexWordChars).flatten).length = 64
  rw [flatten_hexWordChars_length, sha256Words_length]

theorem validHashFormat_sha256hex (msg : List Nat) :
    validHashFormat ("sha256:" ++ sha256hex msg) := by
  refine ⟨sha256hex msg, rfl, sha256hex_length msg, ?_⟩
  intro c hc
  have : c ∈ ((sha256Words msg).map hexWordChars).flatten := hc
  rw [List.mem_flatten] at this
  obtain ⟨l, hl, hcl⟩ := this
  rw [List.mem_map] at hl
  obtain ⟨w, _, rfl⟩ := hl
  exact mem_hexChars_of_mem_hexWordChars hcl

/-! ## Generic batch-loop lemmas -/

theorem recordedFrom_map_fst {W : Type} (d : Bool)
    (sim live : Nat → W → ApiResult) :
    ∀ (i : Nat) (ws : List W),
      (recordedFrom d sim live i ws).map Prod.fst = ws
  | _, [] => rfl
  | i, _ :: rest => by
    simp [recordedFrom, recordedFrom_map_fst d sim live (i + 1) rest]

theorem recordedFrom_length {W : Type} (d : Bool)
    (sim live : Nat → W → ApiResult) (i : Nat) (ws : List W) :
    (recordedFrom d sim live i ws).length = ws.length := by
  have := recordedFrom_map_fst d sim live i ws
  calc (recordedFrom d sim live i ws).length
      = ((recordedFrom d sim live i ws).map Prod.fst).length :=
        (List.length_map _ _).symm
    _ = ws.length := by rw [this]

/-- Characterization of `noInterruptNormal`. -/
theorem noInterruptNormal_iff (e : ItemEvent) :
    noInterruptNormal e = true ↔ ∃ t, e = .normal t false := by
  cases e with
  | interruptBefore => simp [noInterruptNormal]
  | raiseExn => simp [noInterruptNormal]
  | normal t ia => cases ia <;> simp [noInterruptNormal]

/-- In dry-run mode the live submission function is never consulted. -/
theorem processGo_dry_net_irrelevant {W : Type}
    (sim live live' : Nat → W → ApiResult) (env : Nat → ItemEvent) :
    ∀ (ws : List W) (i : Nat) (st : BatchState W),
      processGo true sim live env i ws st =
        processGo true sim live' env i ws st
  | [], _, _ => rfl
  | w :: rest, i, st => by
    simp only [processGo]
    cases env i with
    | interruptBefore => rfl
    | raiseExn =>
      exact processGo_dry_net_irrelevant sim live live' env rest _ _
    | normal t ia =>
      simp only [reduceIte]
      cases ia with
      | true => rfl
      | false =>
        exact processGo_dry_net_irrelevant sim live live' env rest _ _

/-- Running the loop over an all-normal (no interrupt, no exception)
segment records exactly the segment's outcomes and advances the counters
accordingly. -/
theorem processGo_append_normal {W : Type} (d : Bool)
    (sim live : Nat → W → ApiResult) (env : Nat → ItemEvent) :
    ∀ (xs ys : List W) (i : Nat) (st : BatchState W),
      (∀ j, j < xs.length → noInterruptNormal (env (i + j)) = true) →
      processGo d sim live env i (xs ++ ys) st =
        processGo d sim live env (i + xs.length) ys
          { protected_count := st.protected_count +
              ((recordedFrom d sim live i xs).filter
                (fun p => p.2.success)).length,
            error_count := st.error_count +
              ((recordedFrom d sim live i xs).filter
                (fun p => !p.2.success)).length,
            results := st.results ++ recordedFrom d sim live i xs }
  | [], ys, i, st, _ => by simp [recordedFrom]
  | x :: xs, ys, i, st, hnorm => by
    have h0 : noInterruptNormal (env i) = true := by
      have := hnorm 0 (by simp)
      simpa using this
    obtain ⟨t, henv⟩ := (noInterruptNormal_iff (env i)).mp h0
    have hrest : ∀ j, j < xs.length →
        noInterruptNormal (env (i + 1 + j)) = true := by
      intro j hj
      have := hnorm (j + 1) (by simpa using Nat.succ_lt_succ hj)
      simpa [Nat.add_comm, Nat.add_left_comm, Nat.add_assoc] using this
    have hidx : i + (x :: xs).length = i + 1 + xs.length := by
      simp [List.length_cons]
      omega
    simp only [List.cons_append, processGo, henv, Bool.false_eq_true,
      if_false, List.append_eq]
    rw [processGo_append_normal d sim live env xs ys (i + 1) _ hrest, hidx]
    congr 1
    cases hs : (if d then sim i x else live i x).success <;>
      simp [recordedFrom, List.filter_cons, hs, List.append_assoc] <;>
      omega

/-- Every outcome recorded by a dry-run loop execution beyond the initial
state is an output of the simulated-submission function. -/
theorem processGo_mem_dry {W : Type}
    (sim live : Nat → W → ApiResult) (env : Nat → ItemEvent) :
    ∀ (ws : List W) (i : Nat) (st : BatchState W)
      (p : W × ApiResult),
      p ∈ (processGo true sim live env i ws st).results →
      p ∈ st.results ∨ ∃ j, p.2 = sim j p.1
  | [], _, _, _, hp => Or.inl hp
  | w :: rest, i, st, p, hp => by
    simp only [processGo] at hp
    cases henv : env i with
    | interruptBefore => simp only [henv] at hp; exact Or.inl hp
    | raiseExn =>
      simp only [henv] at hp
      rcases processGo_mem_dry sim live env rest (i + 1)
          { st with error_count := st.error_count + 1 } p hp with h | h
      · exact Or.inl h
      · exact Or.inr h
    | normal t ia =>
      simp only [henv, reduceIte] at hp
      have hsplit : p ∈ (if (sim i w).success then
            { st with protected_count := st.protected_count + 1 }
          else
            { st with error_count := st.error_count + 1 }).results ++
            [(w, sim i w)] →
          p ∈ st.results ∨ ∃ j, p.2 = sim j p.1 := by
        intro hmem
        have hmem2 : p ∈ st.results ++ [(w, sim i w)] := by
          cases hs : (sim i w).success <;> simpa [hs] using hmem
        rcases List.mem_append.mp hmem2 with h | h
        · exact Or.inl h
        · rw [List.mem_singleton] at h
          subst h
          exact Or.inr ⟨i, rfl⟩
      cases ia with
      | true =>
        simp only [reduceIte] at hp
        exact hsplit hp
      | false =>
        simp only [Bool.false_eq_true, if_false] at hp
        rcases processGo_mem_dry sim live env rest (i + 1) _ p hp with h | h
        · exact hsplit h
        · exact Or.inr h

/-- Whatever the per-item events, a loop execution appends some ordered
selection of the visited works to the result log, and advances the
protected counter by exactly the number of appended successes. -/
theorem processGo_delta {W : Type} (d : Bool)
    (sim live : Nat → W → ApiResult) (env : Nat → ItemEvent) :
    ∀ (ws : List W) (i : Nat) (st : BatchState W),
      ∃ rec : List (W × ApiResult),
        (processGo d sim live env i ws st).results = st.results ++ rec ∧
        (processGo d sim live env i ws st).protected_count =
          st.protected_count +
            (rec.filter (fun p => p.2.success)).length ∧
        List.Sublist (rec.map Prod.fst) ws
  | [], _, st => ⟨[], by simp [processGo]⟩
  | w :: rest, i, st => by
    simp only [processGo]
    cases henv : env i with
    | interruptBefore =>
      exact ⟨[], by simp, by simp, List.nil_sublist _⟩
    | raiseExn =>
      obtain ⟨rec, h1, h2, h3⟩ := processGo_delta d sim live env rest (i + 1)
        { st with error_count := st.error_count + 1 }
      exact ⟨rec, h1, h2, h3.cons w⟩
    | normal t ia =>
      simp only [reduceIte]
      set r := if d then sim i w else live i w with hr
      cases ia with
      | true =>
        refine ⟨[(w, r)], ?_, ?_, ?_⟩
        · cases hs : r.success <;> simp [hs]
        · cases hs : r.success <;> simp [hs, List.filter_cons]
        · simpa using List.Sublist.cons₂ w (List.nil_sublist rest)
      | false =>
        simp only [Bool.false_eq_true, if_false]
        obtain ⟨rec, h1, h2, h3⟩ := processGo_delta d sim live env rest (i + 1)
          { (if r.success then
              { st with protected_count := st.protected_count + 1 }
            else
              { st with error_count := st.error_count + 1 }) with
            results := (if r.success then
              { st with protected_count := st.protected_count + 1 }
            else
              { st with error_count := st.error_count + 1 }).results ++
              [(w, r)] }
        refine ⟨(w, r) :: rec, ?_, ?_, h3.cons₂ w⟩
        · rw [h1]
          cases hs : r.success <;> simp [hs]
        · rw [h2]
          cases hs : r.success <;>
            simp [hs, List.filter_cons] <;> omega

/-! ## Claim theorems -/

/-- C1: in both tools, both the dry-run (`simulate_protection`) and live
(`protect_work` payload) submission paths compute the content hash as
`"sha256:"` followed by the lowercase hex SHA-256 digest of the UTF-8
encoding of the Work's content, with no normalization applied before
hashing; hashing is deterministic and byte-identical content yields
byte-identical hashes. -/
theorem claim_C1 : ∀ (wb : Bulk.Work) (wsi : Simple.Work) (lt : String)
    (t : Nat),
    (Bulk.simulate_protection wb lt t).content_hash =
      some ("sha256:" ++ sha256hex (utf8Encode wb.content)) ∧
    (Bulk.protect_payload wb lt).content_hash =
      "sha256:" ++ sha256hex (utf8Encode wb.content) ∧
    (Simple.simulate_protection wsi lt t).content_hash =
      some ("sha256:" ++ sha256hex (utf8Encode wsi.content)) ∧
    (Simple.protect_payload wsi lt).content_hash =
      "sha256:" ++ sha256hex (utf8Encode wsi.content) ∧
    (∀ c : String,
      "sha256:" ++ sha256hex (utf8Encode c) =
        "sha256:" ++ sha256hex (utf8Encode c)) ∧
    (∀ c₁ c₂ : String, c₁ = c₂ →
      "sha256:" ++ sha256hex (utf8Encode c₁) =
        "sha256:" ++ sha256hex (utf8Encode c₂)) :=
  fun _ _ _ _ =>
    ⟨rfl, rfl, rfl, rfl, fun _ => rfl, fun _ _ h => by rw [h]⟩

/-- Witness for C1 at a concrete work and content. -/
theorem claim_C1_witness :
    ("hello" : String) = "hello" ∧
    "sha256:" ++ sha256hex (utf8Encode "hello") =
      "sha256:" ++ sha256hex (utf8Encode "hello") :=
  ⟨rfl,
    (claim_C1 { title := "t", content := "c" } { title := "t", content := "c" }
      "liberation_v1" 0).2.2.2.2.2 "hello" "hello" rfl⟩

/-- C4 (amended): in both tools the live submission call returns an
outcome for every transport behaviour (its codomain is `ApiResult`, never
an exception), and transport exceptions and malformed response bodies
yield failure outcomes (`success = false`) carrying the error text.  In
the lightweight tool every non-2xx status likewise yields such a failure
(`urllib` raises `HTTPError` for it); in the full tool only 4xx/5xx
statuses do (`raise_for_status`), while a surfaced 1xx/2xx/3xx response
with a parseable body is returned verbatim. -/
theorem claim_C4 : ∀ (wb : Bulk.Work) (wsi : Simple.Work) (lt m : String)
    (status : Nat) (body : BodyResult) (r : ApiResult)
    (trB : Bulk.ProtectPayload → TransportResult)
    (trS : Simple.ProtectPayload → TransportResult),
    (trB (Bulk.protect_payload wb lt) = .exn m →
      Bulk.protect_work wb lt trB = failResult m) ∧
    (trB (Bulk.protect_payload wb lt) = .resp status body →
      400 ≤ status → status < 600 →
      Bulk.protect_work wb lt trB =
        failResult ("HTTP " ++ toString status)) ∧
    (trB (Bulk.protect_payload wb lt) = .resp status (.malformed m) →
      status < 400 ∨ 600 ≤ status →
      Bulk.protect_work wb lt trB = failResult m) ∧
    (trB (Bulk.protect_payload wb lt) = .resp status (.parsed r) →
      status < 400 ∨ 600 ≤ status →
      Bulk.protect_work wb lt trB = r) ∧
    (trS (Simple.protect_payload wsi lt) = .exn m →
      Simple.protect_work wsi lt trS = failResult m) ∧
    (trS (Simple.protect_payload wsi lt) = .resp status body →
      status < 200 ∨ 300 ≤ status →
      Simple.protect_work wsi lt trS =
        failResult ("HTTP " ++ toString status)) ∧
    (trS (Simple.protect_payload wsi lt) = .resp status (.malformed m) →
      200 ≤ status → status < 300 →
      Simple.protect_work wsi lt trS = failResult m) := by
  intro wb wsi lt m status body r trB trS
  refine ⟨?_, ?_, ?_, ?_, ?_, ?_, ?_⟩
  · intro h
    simp [Bulk.protect_work, h]
  · intro h hc1 hc2
    have hb : (decide (400 ≤ status) && decide (status < 600)) = true := by
      simp [hc1, hc2]
    simp [Bulk.protect_work, h, hb]
  · intro h hc
    have hb : (decide (400 ≤ status) && decide (status < 600)) = false := by
      simp
      omega
    simp [Bulk.protect_work, h, hb]
  · intro h hc
    have hb : (decide (400 ≤ status) && decide (status < 600)) = false := by
      simp
      omega
    simp [Bulk.protect_work, h, hb]
  · intro h
    simp [Simple.protect_work, h]
  · intro h hc
    have hb : (decide (status < 200) || decide (300 ≤ status)) = true := by
      rcases hc with hc | hc <;> simp [hc]
    simp [Simple.protect_work, h, hb]
  · intro h hc1 hc2
    have hb : (decide (status < 200) || decide (300 ≤ status)) = false := by
      simp
      omega
    simp [Simple.protect_work, h, hb]

/-- Counterexample to C4 as stated: in the full tool a surfaced 301
response with a parseable success body is returned verbatim by
`protect_work` — a non-2xx response that does not produce a failure
outcome (`raise_for_status` raises only for 4xx/5xx). -/
theorem claim_C4_counterexample :
    Bulk.protect_work { title := "t", content := "c" } "liberation_v1"
      (fun _ => .resp 301 (.parsed
        { success := true, content_hash := some "h", tx_hash := none,
          verification_url := none, simulated := false, error := none })) =
      { success := true, content_hash := some "h", tx_hash := none,
        verification_url := none, simulated := false, error := none } ∧
    (Bulk.protect_work { title := "t", content := "c" } "liberation_v1"
      (fun _ => .resp 301 (.parsed
        { success := true, content_hash := some "h", tx_hash := none,
          verification_url := none, simulated := false,
          error := none }))).success = true := by
  constructor
  · rfl
  · rfl

/-- Witness for C4 at concrete transport behaviours: an exception for the
full tool and a 404 for the lightweight one. -/
theorem claim_C4_witness :
    ((fun _ : Bulk.ProtectPayload => TransportResult.exn "timeout")
        (Bulk.protect_payload { title := "t", content := "c" } "liberation_v1")
      = .exn "timeout") ∧
    Bulk.protect_work { title := "t", content := "c" } "liberation_v1"
      (fun _ => .exn "timeout") = failResult "timeout" ∧
    ((fun _ : Simple.ProtectPayload =>
        TransportResult.resp 404 (.malformed "x"))
        (Simple.protect_payload { title := "t", content := "c" }
          "liberation_v1")
      = .resp 404 (.malformed "x")) ∧
    Simple.protect_work { title := "t", content := "c" } "liberation_v1"
      (fun _ => .resp 404 (.malformed "x")) = failResult "HTTP 404" := by
  refine ⟨rfl, ?_, rfl, ?_⟩
  · exact (claim_C4 { title := "t", content := "c" }
      { title := "t", content := "c" } "liberation_v1" "timeout" 404
      (.malformed "x") (failResult "x") (fun _ => .exn "timeout")
      (fun _ => .resp 404 (.malformed "x"))).1 rfl
  · exact (claim_C4 { title := "t", content := "c" }
      { title := "t", content := "c" } "liberation_v1" "timeout" 404
      (.malformed "x") (failResult "x") (fun _ => .exn "timeout")
      (fun _ => .resp 404 (.malformed "x"))).2.2.2.2.2.1 rfl
      (Or.inr (by omega))

/-- C5: in dry-run mode the batch loop never consults the network (the run
is invariant under any change of the transport oracle), every recorded
outcome is a fabricated success with `simulated = true` and a content hash
of the valid `"sha256:" + 64 lowercase hex digits` format, and on an
event-free run every item receives such an outcome. -/
theorem claim_C5 :
    (∀ (lt : String) (timeO : Nat → Nat)
      (net net' : Nat → Bulk.ProtectPayload → TransportResult)
      (env : Nat → ItemEvent) (works : List Bulk.Work),
      Bulk.process_works true lt timeO net env works =
        Bulk.process_works true lt timeO net' env works) ∧
    (∀ (lt : String) (timeO : Nat → Nat)
      (net net' : Nat → Simple.ProtectPayload → TransportResult)
      (env : Nat → ItemEvent) (works : List Simple.Work),
      Simple.process_works true lt timeO net env works =
        Simple.process_works true lt timeO net' env works) ∧
    (∀ (lt : String) (timeO : Nat → Nat)
      (net : Nat → Bulk.ProtectPayload → TransportResult)
      (env : Nat → ItemEvent) (works : List Bulk.Work)
      (w : Bulk.Work) (r : ApiResult),
      (w, r) ∈ (Bulk.process_works true lt timeO net env works).results →
      r.success = true ∧ r.simulated = true ∧
        ∃ hsh, r.content_hash = some hsh ∧ validHashFormat hsh) ∧
    (∀ (lt : String) (timeO : Nat → Nat)
      (net : Nat → Simple.ProtectPayload → TransportResult)
      (env : Nat → ItemEvent) (works : List Simple.Work)
      (w : Simple.Work) (r : ApiResult),
      (w, r) ∈ (Simple.process_works true lt timeO net env works).results →
      r.success = true ∧ r.simulated = true ∧
        ∃ hsh, r.content_hash = some hsh ∧ validHashFormat hsh) ∧
    (∀ (lt : String) (timeO : Nat → Nat)
      (net : Nat → Bulk.ProtectPayload → TransportResult)
      (env : Nat → ItemEvent) (works : List Bulk.Work),
      (∀ j, j < works.length → noInterruptNormal (env j) = true) →
      (Bulk.process_works true lt timeO net env works).results.map
        Prod.fst = works) ∧
    (∀ (lt : String) (timeO : Nat → Nat)
      (net : Nat → Simple.ProtectPayload → TransportResult)
      (env : Nat → ItemEvent) (works : List Simple.Work),
      (∀ j, j < works.length → noInterruptNormal (env j) = true) →
      (Simple.process_works true lt timeO net env works).results.map
        Prod.fst = works) := by
  refine ⟨?_, ?_, ?_, ?_, ?_, ?_⟩
  · intro lt timeO net net' env works
    exact processGo_dry_net_irrelevant _ _ _ env works 0 _
  · intro lt timeO net net' env works
    exact processGo_dry_net_irrelevant _ _ _ env works 0 _
  · intro lt timeO net env works w r hmem
    rcases processGo_mem_dry _ _ env works 0 _ (w, r) hmem with h | ⟨j, hj⟩
    · simp at h
    · have hj2 : r = Bulk.simulate_protection w lt (timeO j) := hj
      rw [hj2]
      exact ⟨rfl, rfl, _, rfl, validHashFormat_sha256hex _⟩
  · intro lt timeO net env works w r hmem
    rcases processGo_mem_dry _ _ env works 0 _ (w, r) hmem with h | ⟨j, hj⟩
    · simp at h
    · have hj2 : r = Simple.simulate_protection w lt (timeO j) := hj
      rw [hj2]
      exact ⟨rfl, rfl, _, rfl, validHashFormat_sha256hex _⟩
  · intro lt timeO net env works hnorm
    unfold Bulk.process_works
    rw [show works = works ++ [] from (List.append_nil works).symm]
    rw [processGo_append_normal _ _ _ env works [] 0 _
      (by intro j hj; simpa using hnorm j hj)]
    simp [processGo, recordedFrom_map_fst, List.append_nil]
  · intro lt timeO net env works hnorm
    unfold Simple.process_works
    rw [show works = works ++ [] from (List.append_nil works).symm]
    rw [processGo_append_normal _ _ _ env works [] 0 _
      (by intro j hj; simpa using hnorm j hj)]
    simp [processGo, recordedFrom_map_fst, List.append_nil]

/-- Witness for C5 at a concrete one-item dry run. -/
theorem claim_C5_witness :
    (∀ j, j < ([{ title := "t", content := "c" }] : List Bulk.Work).length →
      noInterruptNormal ((fun _ => ItemEvent.normal 0 false) j) = true) ∧
    (Bulk.process_works true "liberation_v1" (fun _ => 0)
      (fun _ _ => .exn "never") (fun _ => ItemEvent.normal 0 false)
      [{ title := "t", content := "c" }]).results.map Prod.fst =
      [{ title := "t", content := "c" }] := by
  refine ⟨fun j _ => rfl, ?_⟩
  exact claim_C5.2.2.2.2.1 "liberation_v1" (fun _ => 0)
    (fun _ _ => .exn "never") (fun _ => ItemEvent.normal 0 false)
    [{ title := "t", content := "c" }] (fun j _ => rfl)

/-- A batch run whose item at position `pre.length` raises an unexpected
exception while every other iteration is normal: the prefix and suffix are
recorded, the middle item contributes only an error-count increment. -/
theorem processGo_exn_middle {W : Type} (d : Bool)
    (sim live : Nat → W → ApiResult) (env : Nat → ItemEvent)
    (pre post : List W) (wk : W)
    (h1 : ∀ j, j < pre.length → noInterruptNormal (env j) = true)
    (h2 : env pre.length = .raiseExn)
    (h3 : ∀ j, pre.length < j → noInterruptNormal (env j) = true) :
    processGo d sim live env 0 (pre ++ wk :: post) ⟨0, 0, []⟩ =
      { protected_count :=
          ((recordedFrom d sim live 0 pre).filter
            (fun p => p.2.success)).length +
          ((recordedFrom d sim live (pre.length + 1) post).filter
            (fun p => p.2.success)).length,
        error_count :=
          ((recordedFrom d sim live 0 pre).filter
            (fun p => !p.2.success)).length + 1 +
          ((recordedFrom d sim live (pre.length + 1) post).filter
            (fun p => !p.2.success)).length,
        results := recordedFrom d sim live 0 pre ++
          recordedFrom d sim live (pre.length + 1) post } := by
  rw [processGo_append_normal d sim live env pre (wk :: post) 0 ⟨0, 0, []⟩
    (by intro j hj; simpa using h1 j hj)]
  simp only [Nat.zero_add, List.nil_append]
  simp only [processGo, h2]
  rw [show post = post ++ [] from (List.append_nil post).symm,
    processGo_append_normal d sim live env post [] (pre.length + 1) _
      (by intro j hj; exact h3 (pre.length + 1 + j) (by omega))]
  simp [processGo, List.append_nil]

/-- C2 (amended): in both tools, when item `k` of a batch raises an
unexpected exception and every other iteration is normal, the loop catches
the exception, increments the error counter for that item, and continues:
the other `N - 1` items' outcomes are recorded in input order, the result
log has exactly `N - 1` entries, the error counter exceeds the number of
recorded failures by exactly one (no outcome is recorded in the log for
item `k`), and every item after `k` is processed. -/
theorem claim_C2 : ∀ (d : Bool) (lt : String) (timeO : Nat → Nat)
    (netB : Nat → Bulk.ProtectPayload → TransportResult)
    (netS : Nat → Simple.ProtectPayload → TransportResult)
    (env : Nat → ItemEvent)
    (preB postB : List Bulk.Work) (wkB : Bulk.Work)
    (preS postS : List Simple.Work) (wkS : Simple.Work),
    (∀ j, j < preB.length → noInterruptNormal (env j) = true) →
    env preB.length = .raiseExn →
    (∀ j, preB.length < j → noInterruptNormal (env j) = true) →
    preS.length = preB.length →
    ((Bulk.process_works d lt timeO netB env
        (preB ++ wkB :: postB)).results.map Prod.fst = preB ++ postB ∧
      (Bulk.process_works d lt timeO netB env
        (preB ++ wkB :: postB)).results.length =
        (preB ++ wkB :: postB).length - 1 ∧
      (Bulk.process_works d lt timeO netB env
        (preB ++ wkB :: postB)).error_count =
        ((Bulk.process_works d lt timeO netB env
          (preB ++ wkB :: postB)).results.filter
            (fun p => !p.2.success)).length + 1 ∧
      (Bulk.process_works d lt timeO netB env
        (preB ++ wkB :: postB)).protected_count =
        ((Bulk.process_works d lt timeO netB env
          (preB ++ wkB :: postB)).results.filter
            (fun p => p.2.success)).length) ∧
    ((Simple.process_works d lt timeO netS env
        (preS ++ wkS :: postS)).results.map Prod.fst = preS ++ postS ∧
      (Simple.process_works d lt timeO netS env
        (preS ++ wkS :: postS)).results.length =
        (preS ++ wkS :: postS).length - 1 ∧
      (Simple.process_works d lt timeO netS env
        (preS ++ wkS :: postS)).error_count =
        ((Simple.process_works d lt timeO netS env
          (preS ++ wkS :: postS)).results.filter
            (fun p => !p.2.success)).length + 1 ∧
      (Simple.process_works d lt timeO netS env
        (preS ++ wkS :: postS)).protected_count =
        ((Simple.process_works d lt timeO netS env
          (preS ++ wkS :: postS)).results.filter
            (fun p => p.2.success)).length) := by
  intro d lt timeO netB netS env preB postB wkB preS postS wkS h1 h2 h3 hlen
  constructor
  · unfold Bulk.process_works
    rw [processGo_exn_middle d _ _ env preB postB wkB h1 h2 h3]
    refine ⟨?_, ?_, ?_, ?_⟩
    · simp [recordedFrom_map_fst]
    · simp [recordedFrom_length, List.length_append, List.length_cons]
    · simp [List.filter_append]
      omega
    · simp [List.filter_append]
  · unfold Simple.process_works
    rw [processGo_exn_middle d _ _ env preS postS wkS
      (by intro j hj; exact h1 j (by omega))
      (by rw [hlen]; exact h2)
      (by intro j hj; exact h3 j (by omega))]
    refine ⟨?_, ?_, ?_, ?_⟩
    · simp [recordedFrom_map_fst]
    · simp [recordedFrom_length, List.length_append, List.length_cons]
    · simp [List.filter_append]
      omega
    · simp [List.filter_append]

/-- Counterexample to C2 as stated: a one-item batch whose single item
raises records no outcome at all — the error counter is incremented, but
no failure outcome for the item appears in the result log. -/
theorem claim_C2_counterexample :
    (Bulk.process_works false "liberation_v1" (fun _ => 0)
      (fun _ _ => .exn "e") (fun _ => ItemEvent.raiseExn)
      [{ title := "t", content := "c" }]).results = [] ∧
    (Bulk.process_works false "liberation_v1" (fun _ => 0)
      (fun _ _ => .exn "e") (fun _ => ItemEvent.raiseExn)
      [{ title := "t", content := "c" }]).error_count = 1 ∧
    ¬ ∃ r : ApiResult,
      ({ title := "t", content := "c" }, r) ∈
        (Bulk.process_works false "liberation_v1" (fun _ => 0)
          (fun _ _ => .exn "e") (fun _ => ItemEvent.raiseExn)
          [{ title := "t", content := "c" }]).results ∧
      r.success = false := by
  refine ⟨rfl, rfl, ?_⟩
  rintro ⟨r, hr, _⟩
  simp [Bulk.process_works, processGo] at hr

/-- Witness for C2 at a concrete three-item batch whose middle item
raises. -/
theorem claim_C2_witness :
    (∀ j, j < ([{ title := "a", content := "x" }] :
        List Bulk.Work).length →
      noInterruptNormal ((fun j => if j = 1 then ItemEvent.raiseExn
        else ItemEvent.normal 0 false) j) = true) ∧
    ((fun j => if j = 1 then ItemEvent.raiseExn
        else ItemEvent.normal 0 false) 1 = ItemEvent.raiseExn) ∧
    (Bulk.process_works true "liberation_v1" (fun _ => 0)
      (fun _ _ => .exn "e")
      (fun j => if j = 1 then ItemEvent.raiseExn
        else ItemEvent.normal 0 false)
      ([{ title := "a", content := "x" }] ++
        { title := "b", content := "y" } ::
          [{ title := "c", content := "z" }])).results.map Prod.fst =
      [{ title := "a", content := "x" }] ++
        [{ title := "c", content := "z" }] := by
  refine ⟨?_, rfl, ?_⟩
  · intro j hj
    simp [Nat.lt_one_iff] at hj
    subst hj
    rfl
  · have := claim_C2 true "liberation_v1" (fun _ => 0)
      (fun _ _ => .exn "e") (fun _ _ => .exn "e")
      (fun j => if j = 1 then ItemEvent.raiseExn
        else ItemEvent.normal 0 false)
      [{ title := "a", content := "x" }]
      [{ title := "c", content := "z" }]
      { title := "b", content := "y" }
      [{ title := "a", content := "x" }]
      [{ title := "c", content := "z" }]
      { title := "b", content := "y" }
      (by intro j hj; simp [Nat.lt_one_iff] at hj; subst hj; rfl)
      rfl
      (by
        intro j hj
        simp at hj
        have hne : j ≠ 1 := by omega
        simp [hne, noInterruptNormal])
      rfl
    exact this.1.1

/-- C10: in both tools, the result log lists outcomes for a subsequence of
the works in input order, and the protected counter always equals the
number of recorded successful outcomes — every loop execution from any
state satisfying this invariant preserves it — while the error counter can
exceed the number of recorded failure outcomes (witnessed by a run whose
single item raises: one counted error, no recorded outcome). -/
theorem claim_C10 :
    (∀ (W : Type) (d : Bool) (sim live : Nat → W → ApiResult)
      (env : Nat → ItemEvent) (i : Nat) (ws : List W) (st : BatchState W),
      st.protected_count =
        (st.results.filter (fun p => p.2.success)).length →
      (processGo d sim live env i ws st).protected_count =
        ((processGo d sim live env i ws st).results.filter
          (fun p => p.2.success)).length) ∧
    (∀ (d : Bool) (lt : String) (timeO : Nat → Nat)
      (net : Nat → Bulk.ProtectPayload → TransportResult)
      (env : Nat → ItemEvent) (works : List Bulk.Work),
      (Bulk.process_works d lt timeO net env works).protected_count =
        ((Bulk.process_works d lt timeO net env works).results.filter
          (fun p => p.2.success)).length ∧
      List.Sublist
        ((Bulk.process_works d lt timeO net env works).results.map
          Prod.fst) works) ∧
    (∀ (d : Bool) (lt : String) (timeO : Nat → Nat)
      (net : Nat → Simple.ProtectPayload → TransportResult)
      (env : Nat → ItemEvent) (works : List Simple.Work),
      (Simple.process_works d lt timeO net env works).protected_count =
        ((Simple.process_works d lt timeO net env works).results.filter
          (fun p => p.2.success)).length ∧
      List.Sublist
        ((Simple.process_works d lt timeO net env works).results.map
          Prod.fst) works) ∧
    ((Bulk.process_works true "liberation_v1" (fun _ => 0)
        (fun _ _ => .exn "e") (fun _ => ItemEvent.raiseExn)
        [{ title := "t", content := "c" }]).error_count = 1 ∧
      ((Bulk.process_works true "liberation_v1" (fun _ => 0)
        (fun _ _ => .exn "e") (fun _ => ItemEvent.raiseExn)
        [{ title := "t", content := "c" }]).results.filter
          (fun p => !p.2.success)).length = 0) := by
  refine ⟨?_, ?_, ?_, rfl, rfl⟩
  · intro W d sim live env i ws st hst
    obtain ⟨rec, h1, h2, _⟩ := processGo_delta d sim live env ws i st
    rw [h1, h2, hst, List.filter_append, List.length_append]
  · intro d lt timeO net env works
    obtain ⟨rec, h1, h2, h3⟩ :=
      processGo_delta d
        (fun i w => Bulk.simulate_protection w lt (timeO i))
        (fun i w => Bulk.protect_work w lt (net i)) env works 0 ⟨0, 0, []⟩
    constructor
    · unfold Bulk.process_works
      rw [h1, h2]
      simp
    · unfold Bulk.process_works
      rw [h1]
      simpa using h3
  · intro d lt timeO net env works
    obtain ⟨rec, h1, h2, h3⟩ :=
      processGo_delta d
        (fun i w => Simple.simulate_protection w lt (timeO i))
        (fun i w => Simple.protect_work w lt (net i)) env works 0 ⟨0, 0, []⟩
    constructor
    · unfold Simple.process_works
      rw [h1, h2]
      simp
    · unfold Simple.process_works
      rw [h1]
      simpa using h3

/-- Witness for C10: the preservation statement applied to a concrete
state already satisfying the invariant. -/
theorem claim_C10_witness :
    ((⟨0, 0, []⟩ : BatchState Bulk.Work).protected_count =
      (((⟨0, 0, []⟩ : BatchState Bulk.Work)).results.filter
        (fun p => p.2.success)).length) ∧
    (processGo true (fun _ w => Bulk.simulate_protection w "liberation_v1" 0)
      (fun _ w => Bulk.protect_work w "liberation_v1" (fun _ => .exn "e"))
      (fun _ => ItemEvent.interruptBefore) 0
      [{ title := "t", content := "c" }]
      ⟨0, 0, []⟩).protected_count =
      ((processGo true
        (fun _ w => Bulk.simulate_protection w "liberation_v1" 0)
        (fun _ w => Bulk.protect_work w "liberation_v1" (fun _ => .exn "e"))
        (fun _ => ItemEvent.interruptBefore) 0
        [{ title := "t", content := "c" }]
        ⟨0, 0, []⟩).results.filter (fun p => p.2.success)).length :=
  ⟨rfl,
    claim_C10.1 Bulk.Work true
      (fun _ w => Bulk.simulate_protection w "liberation_v1" 0)
      (fun _ w => Bulk.protect_work w "liberation_v1" (fun _ => .exn "e"))
      (fun _ => ItemEvent.interruptBefore) 0
      [{ title := "t", content := "c" }] ⟨0, 0, []⟩ rfl⟩

/-- Helper: an element produced through a validity guard satisfies the
guard. -/
theorem valid_guard_some {α : Type} (p : α → Bool) (a b : α)
    (h : (if p a then some a else none) = some b) : p b = true := by
  by_cases hp : p a
  · rw [if_pos hp] at h
    rw [Option.some_inj] at h
    rw [← h]
    exact hp
  · rw [if_neg hp] at h
    cases h

/-- C3 (amended): the full tool's validator returns false exactly when the
title or content is empty, the stripped content is shorter than 100
characters, or the raw content exceeds 10 MiB; the lightweight variant's
inline gate accepts exactly when content is non-empty and its stripped
length is strictly greater than 50 (it checks neither the title nor a
maximum size); a record whose stripped content is 40 characters long is
excluded in both variants. -/
theorem claim_C3 :
    (∀ w : Bulk.Work, Bulk.is_valid_work w = false ↔
      (w.title = "" ∨ w.content = "" ∨
        (pyStrip w.content).length < 100 ∨
        w.content.length > 10 * 1024 * 1024)) ∧
    (∀ c : String, Simple.content_gate c = true ↔
      (c ≠ "" ∧ (pyStrip c).length > 50)) ∧
    (∀ w : Bulk.Work, (pyStrip w.content).length = 40 →
      Bulk.is_valid_work w = false) ∧
    (∀ c : String, (pyStrip c).length = 40 →
      Simple.content_gate c = false) := by
  have hbulk : ∀ w : Bulk.Work, Bulk.is_valid_work w = false ↔
      (w.title = "" ∨ w.content = "" ∨
        (pyStrip w.content).length < 100 ∨
        w.content.length > 10 * 1024 * 1024) := by
    intro w
    by_cases h1 : w.title = ""
    · simp [Bulk.is_valid_work, h1]
    · by_cases h2 : w.content = ""
      · simp [Bulk.is_valid_work, h1, h2]
      · by_cases h3 : (pyStrip w.content).length < 100
        · simp [Bulk.is_valid_work, h1, h2, h3]
        · by_cases h4 : w.content.length > 10 * 1024 * 1024 <;>
            simp [Bulk.is_valid_work, h1, h2, h3, h4]
  refine ⟨hbulk, ?_, ?_, ?_⟩
  · intro c
    simp [Simple.content_gate]
  · intro w h40
    exact (hbulk w).mpr (Or.inr (Or.inr (Or.inl (by omega))))
  · intro c h40
    simp [Simple.content_gate, h40]

/-- Counterexample to C3 as stated: a record whose content is exactly 50
non-whitespace characters is excluded by the lightweight gate
(`len(content.strip()) > 50` is strict) although none of the claim's
rejection conditions (empty title or content, character count below 50,
content above 10 MiB) holds for it. -/
theorem claim_C3_counterexample :
    Simple.content_gate (String.mk (List.replicate 50 'a')) = false ∧
    ¬(("T" : String) = "" ∨
      String.mk (List.replicate 50 'a') = "" ∨
      (String.mk (List.replicate 50 'a')).length < 50 ∨
      (String.mk (List.replicate 50 'a')).length > 10 * 1024 * 1024) := by
  constructor
  · decide
  · decide

/-- Witness for C3 at a concrete 40-character content. -/
theorem claim_C3_witness :
    (pyStrip (String.mk (List.replicate 40 'b'))).length = 40 ∧
    Simple.content_gate (String.mk (List.replicate 40 'b')) = false :=
  ⟨by decide, claim_C3.2.2.2 (String.mk (List.replicate 40 'b')) (by decide)⟩

/-- Works surviving the record loop of `parse_ao3_export` pass the
validator. -/
theorem mem_parse_ao3_records_valid {l : List JVal} {w : Bulk.Work}
    (hm : w ∈ Bulk.parse_ao3_records l) : Bulk.is_valid_work w = true := by
  obtain ⟨rec, _, heq⟩ := List.mem_filterMap.mp hm
  cases hpr : Bulk.parse_ao3_record rec with
  | none => rw [hpr] at heq; cases heq
  | some w0 =>
    rw [hpr] at heq
    exact valid_guard_some _ _ _ heq

/-- A work returned by the WordPress item loop passes the validator. -/
theorem wp_item_step_ok_valid (sh : String → String) (it : Bulk.WpItem)
    (w : Bulk.Work) (h : Bulk.wp_item_step sh it = .ok w) :
    Bulk.is_valid_work w = true := by
  simp only [Bulk.wp_item_step] at h
  repeat' split at h
  all_goals
    first
      | exact Bulk.WpStep.noConfusion h
      | (injection h with hh; subst hh; simp_all)

/-- A record accepted by the lightweight JSON record loop passes the
inline content gate. -/
theorem parse_json_record_gate {fp : String} {rec : JVal} {w : Simple.Work}
    (h : Simple.parse_json_record fp rec = some w) :
    Simple.content_gate w.content = true := by
  cases rec with
  | obj kvs =>
    simp only [Simple.parse_json_record] at h
    split at h
    · rw [Option.some_inj] at h
      rw [← h]
      assumption
    · cases h
  | null => cases h
  | bool b => cases h
  | num n => cases h
  | str s => cases h
  | arr l => cases h

/-- Every work of the lightweight JSON parser's output comes from its
record loop. -/
theorem mem_parse_json_export {fp : String} {data : JVal} {w : Simple.Work}
    (hm : w ∈ Simple.parse_json_export fp data) :
    ∃ rec, Simple.parse_json_record fp rec = some w := by
  cases data with
  | arr l =>
    obtain ⟨rec, _, heq⟩ := List.mem_filterMap.mp hm
    exact ⟨rec, heq⟩
  | obj kvs =>
    have hm2 : w ∈ (match (if (jLookup kvs "works").isSome then
          jIter (jGetD kvs "works" .null)
        else some [JVal.obj kvs] : Option (List JVal)) with
      | some l => List.filterMap (Simple.parse_json_record fp) l
      | none => ([] : List Simple.Work)) := hm
    by_cases hk : (jLookup kvs "works").isSome
    · rw [if_pos hk] at hm2
      cases hit : jIter (jGetD kvs "works" .null) with
      | none => simp only [hit] at hm2; cases hm2
      | some l =>
        simp only [hit] at hm2
        obtain ⟨rec, _, heq⟩ := List.mem_filterMap.mp hm2
        exact ⟨rec, heq⟩
    · rw [if_neg hk] at hm2
      obtain ⟨rec, _, heq⟩ := List.mem_filterMap.mp hm2
      exact ⟨rec, heq⟩
  | null =>
    obtain ⟨rec, _, heq⟩ := List.mem_filterMap.mp hm
    exact ⟨rec, heq⟩
  | bool b =>
    obtain ⟨rec, _, heq⟩ := List.mem_filterMap.mp hm
    exact ⟨rec, heq⟩
  | num n =>
    obtain ⟨rec, _, heq⟩ := List.mem_filterMap.mp hm
    exact ⟨rec, heq⟩
  | str s =>
    obtain ⟨rec, _, heq⟩ := List.mem_filterMap.mp hm
    exact ⟨rec, heq⟩

/-- Every work emitted by the URL-list loop passes the validator (the
guard `work and self.is_valid_work(work)` precedes the append). -/
theorem mem_parse_url_list_go_valid (scrape : Nat → Bulk.ScrapeResult) :
    ∀ (urls : List String) (i : Nat) (w : Bulk.Work),
      w ∈ (Bulk.parse_url_list_go scrape i urls).1 →
      Bulk.is_valid_work w = true
  | [], _, _, hm => absurd hm (List.not_mem_nil _)
  | url :: rest, i, w, hm => by
    simp only [Bulk.parse_url_list_go] at hm
    cases hscr : scrape i with
    | err m =>
      simp only [hscr] at hm
      exact mem_parse_url_list_go_valid scrape rest (i + 1) w hm
    | ok w0 =>
      simp only [hscr] at hm
      by_cases hv : Bulk.is_valid_work w0
      · rw [if_pos hv] at hm
        rcases List.mem_cons.mp hm with h | h
        · rw [h]
          exact hv
        · exact mem_parse_url_list_go_valid scrape rest (i + 1) w h
      · rw [if_neg hv] at hm
        exact mem_parse_url_list_go_valid scrape rest (i + 1) w hm

/-- C6 (amended): in the full tool all four parsers (file directory,
structured export, syndication export, URL list) validate after
construction, so each emitted Work passes `is_valid_work`; the lightweight
JSON parser's outputs pass its inline gate; but the lightweight
single-file parser checks the 50-character minimum on the stripped file
text before removing a detected title line, so only that pre-check is
guaranteed (its output's content can be shorter, even empty). -/
theorem claim_C6 :
    (∀ (files : List (String × String)) (w : Bulk.Work),
      w ∈ Bulk.parse_file_directory files →
      Bulk.is_valid_work w = true) ∧
    (∀ (data : JVal) (w : Bulk.Work),
      w ∈ Bulk.parse_ao3_export data → Bulk.is_valid_work w = true) ∧
    (∀ (sh : String → String) (items : List Bulk.WpItem) (w : Bulk.Work),
      w ∈ Bulk.parse_wordpress_export sh items →
      Bulk.is_valid_work w = true) ∧
    (∀ (scrape : Nat → Bulk.ScrapeResult) (lines : List String)
      (w : Bulk.Work),
      w ∈ (Bulk.parse_url_list scrape lines).1 →
      Bulk.is_valid_work w = true) ∧
    (∀ (fp : String) (data : JVal) (w : Simple.Work),
      w ∈ Simple.parse_json_export fp data →
      w.content ≠ "" ∧ (pyStrip w.content).length > 50) ∧
    (∀ (fp text : String) (w : Simple.Work),
      Simple.parse_single_file fp text = some w →
      (pyStrip text).length ≥ 50) := by
  refine ⟨?_, ?_, ?_, ?_, ?_, ?_⟩
  · intro files w hm
    obtain ⟨pr, _, heq⟩ := List.mem_filterMap.mp hm
    simp only [Bulk.parse_directory_file] at heq
    exact valid_guard_some _ _ _ heq
  · intro data w hm
    cases data with
    | arr l => exact mem_parse_ao3_records_valid hm
    | obj kvs =>
      simp only [Bulk.parse_ao3_export] at hm
      cases hlk : jLookup kvs "works" with
      | none => simp only [hlk] at hm; cases hm
      | some v =>
        simp only [hlk] at hm
        cases hit : jIter v with
        | none => simp only [hit] at hm; cases hm
        | some l =>
          simp only [hit] at hm
          exact mem_parse_ao3_records_valid hm
    | null => cases hm
    | bool b => cases hm
    | num n => cases hm
    | str s => cases hm
  · intro sh items w hm
    obtain ⟨it, _, heq⟩ := List.mem_filterMap.mp hm
    cases hstep : Bulk.wp_item_step sh it with
    | ok w0 =>
      rw [hstep, Option.some_inj] at heq
      rw [← heq]
      exact wp_item_step_ok_valid sh it w0 hstep
    | filtered => rw [hstep] at heq; cases heq
    | errored => rw [hstep] at heq; cases heq
    | invalid => rw [hstep] at heq; cases heq
  · intro scrape lines w hm
    exact mem_parse_url_list_go_valid scrape _ 0 w hm
  · intro fp data w hm
    obtain ⟨rec, heq⟩ := mem_parse_json_export hm
    have := parse_json_record_gate heq
    simpa [Simple.content_gate] using this
  · intro fp text w h
    simp only [Simple.parse_single_file] at h
    split at h
    · cases h
    · omega

/-- Counterexample to C6 as stated: a single-line 60-character file passes
the lightweight pre-check, after which the whole line is taken as the
title, leaving a surviving Work whose content is empty (and far below the
minimum). -/
theorem claim_C6_counterexample :
    Simple.parse_single_file "story.txt"
        (String.mk (List.replicate 60 'a')) =
      some { title := String.mk (List.replicate 60 'a'), content := "",
             author := "Unknown", word_count := 0,
             source_file := "story.txt" } ∧
    ({ title := String.mk (List.replicate 60 'a'), content := "",
       author := "Unknown", word_count := 0,
       source_file := "story.txt" } : Simple.Work).content = "" := by
  constructor
  · decide
  · rfl

set_option maxRecDepth 10000 in
/-- Witness for C6 at a concrete valid file. -/
theorem claim_C6_witness :
    Simple.parse_single_file "s.txt"
        (String.mk ('T' :: '\n' :: List.replicate 120 'a')) =
      some { title := "T", content := String.mk (List.replicate 120 'a'),
             author := "Unknown", word_count := 1,
             source_file := "s.txt" } ∧
    (pyStrip (String.mk ('T' :: '\n' :: List.replicate 120 'a'))).length
      ≥ 50 := by
  refine ⟨by decide, ?_⟩
  exact claim_C6.2.2.2.2.2 "s.txt"
    (String.mk ('T' :: '\n' :: List.replicate 120 'a'))
    { title := "T", content := String.mk (List.replicate 120 'a'),
      author := "Unknown", word_count := 1, source_file := "s.txt" }
    (by decide)

/-- C7 (amended): in the full tool, works are produced only when the
top-level JSON value is a sequence or an object whose `works` key holds an
iterable — any other shape yields zero works; the lightweight variant,
however, treats a top-level object without a `works` key (and any
non-sequence value) as a single record, so such a shape can produce a
work rather than failing hard. -/
theorem claim_C7 :
    (∀ data : JVal, Bulk.parse_ao3_export data ≠ [] →
      (∃ l, data = .arr l) ∨
      (∃ kvs v l, data = .obj kvs ∧ jLookup kvs "works" = some v ∧
        jIter v = some l)) ∧
    (∀ (fp : String) (kvs : List (String × JVal)),
      jLookup kvs "works" = none →
      Simple.parse_json_export fp (.obj kvs) =
        (Simple.parse_json_record fp (.obj kvs)).toList) := by
  constructor
  · intro data hne
    cases data with
    | arr l => exact Or.inl ⟨l, rfl⟩
    | obj kvs =>
      refine Or.inr ?_
      simp only [Bulk.parse_ao3_export] at hne
      cases hlk : jLookup kvs "works" with
      | none => simp only [hlk] at hne; exact absurd rfl hne
      | some v =>
        simp only [hlk] at hne
        cases hit : jIter v with
        | none => simp only [hit] at hne; exact absurd rfl hne
        | some l => exact ⟨kvs, v, l, rfl, hlk, hit⟩
    | null => exact absurd rfl hne
    | bool b => exact absurd rfl hne
    | num n => exact absurd rfl hne
    | str s => exact absurd rfl hne
  · intro fp kvs hnone
    have hk : (jLookup kvs "works").isSome = false := by
      rw [hnone]; rfl
    have heq : Simple.parse_json_export fp (.obj kvs) =
        List.filterMap (Simple.parse_json_record fp) [JVal.obj kvs] := by
      have h2 : Simple.parse_json_export fp (.obj kvs) =
          (match (if (jLookup kvs "works").isSome then
              jIter (jGetD kvs "works" .null)
            else some [JVal.obj kvs] : Option (List JVal)) with
          | some l => List.filterMap (Simple.parse_json_record fp) l
          | none => ([] : List Simple.Work)) := rfl
      rw [h2, hk]
      simp
    rw [heq]
    cases hr : Simple.parse_json_record fp (.obj kvs) <;> simp [hr]

/-- Counterexample to C7 as stated: the lightweight parser, given a
top-level object with no `works` key — a shape the claim calls a hard
parse failure producing zero works — produces one work. -/
theorem claim_C7_counterexample :
    Simple.parse_json_export "f.json"
        (.obj [("title", .str "T"),
               ("content", .str (String.mk (List.replicate 60 'a')))]) =
      [{ title := "T", content := String.mk (List.replicate 60 'a'),
         author := "Unknown", word_count := 1,
         source_file := "f.json" }] ∧
    Simple.parse_json_export "f.json"
        (.obj [("title", .str "T"),
               ("content", .str (String.mk (List.replicate 60 'a')))]) ≠
      [] := by
  constructor
  · decide
  · decide

set_option maxRecDepth 10000 in
/-- Witness for C7 at concrete inputs: a producing top-level array for the
full tool, and an object without a `works` key for the lightweight one. -/
theorem claim_C7_witness :
    Bulk.parse_ao3_export
        (.arr [.obj [("title", .str "T"),
          ("content", .str (String.mk (List.replicate 120 'a')))]]) ≠ [] ∧
    ((∃ l, (JVal.arr [.obj [("title", .str "T"),
        ("content", .str (String.mk (List.replicate 120 'a')))]]) =
          .arr l) ∨
      (∃ kvs v l, (JVal.arr [.obj [("title", .str "T"),
        ("content", .str (String.mk (List.replicate 120 'a')))]]) =
          .obj kvs ∧
        jLookup kvs "works" = some v ∧ jIter v = some l)) ∧
    jLookup [("title", JVal.str "T")] "works" = none ∧
    Simple.parse_json_export "f.json" (.obj [("title", .str "T")]) =
      (Simple.parse_json_record "f.json" (.obj [("title", .str "T")])).toList
    := by
  refine ⟨by decide, ?_, rfl, ?_⟩
  · exact claim_C7.1 _ (by decide)
  · exact claim_C7.2 "f.json" [("title", JVal.str "T")] rfl

/-- A syndication item with a deviant status or post type is filtered at
the top of the loop body, before any content processing. -/
theorem wp_item_step_filtered_of_bad (sh : String → String)
    (it : Bulk.WpItem)
    (h : (Bulk.wpBadStatus it || Bulk.wpBadType it) = true) :
    Bulk.wp_item_step sh it = .filtered := by
  cases hbt : Bulk.wpBadType it with
  | true => simp [Bulk.wp_item_step, hbt]
  | false =>
    rw [hbt, Bool.or_false] at h
    simp [Bulk.wp_item_step, hbt, h]

/-- C8: an item whose status element is present with text other than
`publish`, or whose post-type element is present with text other than
`post`/`page`, never contributes to the syndication parser's output —
regardless of its content — and it is silently filtered, not treated as an
error; the parser's output over any item list equals its output over the
list with all such items removed. -/
theorem claim_C8 : ∀ (sh : String → String) (it : Bulk.WpItem)
    (items : List Bulk.WpItem),
    ((Bulk.wpBadStatus it || Bulk.wpBadType it) = true →
      Bulk.wp_item_step sh it = .filtered) ∧
    Bulk.parse_wordpress_export sh items =
      Bulk.parse_wordpress_export sh
        (items.filter (fun i =>
          !(Bulk.wpBadStatus i || Bulk.wpBadType i))) := by
  intro sh it items
  constructor
  · exact wp_item_step_filtered_of_bad sh it
  · simp only [Bulk.parse_wordpress_export]
    induction items with
    | nil => rfl
    | cons x xs ih =>
      by_cases hbad : (Bulk.wpBadStatus x || Bulk.wpBadType x) = true
      · have hstep := wp_item_step_filtered_of_bad sh x hbad
        have hflt : (!(Bulk.wpBadStatus x || Bulk.wpBadType x)) = false := by
          rw [hbad]
          rfl
        simp only [List.filter_cons, hflt, Bool.false_eq_true, if_false,
          List.filterMap_cons, hstep]
        exact ih
      · have hflt : (!(Bulk.wpBadStatus x || Bulk.wpBadType x)) = true := by
          rw [Bool.not_eq_true] at hbad
          rw [hbad]
          rfl
        simp only [List.filter_cons, hflt, if_pos, List.filterMap_cons]
        cases hstep : Bulk.wp_item_step sh x <;>
          simp only [hstep] <;>
          first
            | exact ih
            | rw [ih]

/-- Witness for C8 at a concrete draft item. -/
theorem claim_C8_witness :
    (Bulk.wpBadStatus
        { post_type := some (some "post"), status := some (some "draft"),
          title := some (some "T"), content_encoded := some (some "body") } ||
      Bulk.wpBadType
        { post_type := some (some "post"), status := some (some "draft"),
          title := some (some "T"),
          content_encoded := some (some "body") }) = true ∧
    Bulk.wp_item_step id
      { post_type := some (some "post"), status := some (some "draft"),
        title := some (some "T"), content_encoded := some (some "body") } =
      .filtered := by
  refine ⟨by decide, ?_⟩
  exact (claim_C8 id
    { post_type := some (some "post"), status := some (some "draft"),
      title := some (some "T"), content_encoded := some (some "body") }
    []).1 (by decide)

/-- Under scrape behaviours that never raise, every URL iteration appends
`fetch, sleep`, so no two fetches are adjacent in the trace. -/
theorem parse_url_list_go_no_adjacent (scrape : Nat → Bulk.ScrapeResult) :
    ∀ (urls : List String) (i : Nat),
      (∀ j m, scrape j ≠ .err m) →
      noAdjacentFetches (Bulk.parse_url_list_go scrape i urls).2 = true
  | [], _, _ => rfl
  | url :: rest, i, hok => by
    simp only [Bulk.parse_url_list_go]
    cases hscr : scrape i with
    | err m => exact absurd hscr (hok i m)
    | ok w =>
      have ih := parse_url_list_go_no_adjacent scrape rest (i + 1) hok
      cases htr : (Bulk.parse_url_list_go scrape (i + 1) rest).2 with
      | nil => rfl
      | cons e tr2 =>
        rw [htr] at ih
        simpa [noAdjacentFetches] using ih

/-- C9 (amended): the URL-list parser sleeps one time unit after each URL
whose processing does not raise (success or invalid work alike), so a run
without raised errors has a delay between every pair of consecutive
fetches; but when a URL's fetch or extraction raises, the `continue` in
the handler skips the sleep and the next fetch follows immediately. -/
theorem claim_C9 :
    (∀ (scrape : Nat → Bulk.ScrapeResult) (lines : List String),
      (∀ j m, scrape j ≠ .err m) →
      noAdjacentFetches (Bulk.parse_url_list scrape lines).2 = true) ∧
    (∀ (scrape : Nat → Bulk.ScrapeResult) (i : Nat) (url : String)
      (rest : List String) (m : String),
      scrape i = .err m →
      (Bulk.parse_url_list_go scrape i (url :: rest)).2 =
        .fetch url :: (Bulk.parse_url_list_go scrape (i + 1) rest).2) ∧
    (∀ (scrape : Nat → Bulk.ScrapeResult) (i : Nat) (url : String)
      (rest : List String) (w : Bulk.Work),
      scrape i = .ok w →
      (Bulk.parse_url_list_go scrape i (url :: rest)).2 =
        .fetch url :: .sleep ::
          (Bulk.parse_url_list_go scrape (i + 1) rest).2) := by
  refine ⟨?_, ?_, ?_⟩
  · intro scrape lines hok
    exact parse_url_list_go_no_adjacent scrape _ 0 hok
  · intro scrape i url rest m hscr
    simp [Bulk.parse_url_list_go, hscr]
  · intro scrape i url rest w hscr
    simp [Bulk.parse_url_list_go, hscr]

/-- Counterexample to C9 as stated: a two-URL list whose first fetch
raises produces a trace in which the second fetch immediately follows the
first with no sleep between them — the fixed inter-request delay is not
enforced after a raising URL. -/
theorem claim_C9_counterexample :
    (Bulk.parse_url_list
        (fun i => if i = 0 then .err "boom"
          else .ok { title := "t", content := "c" })
        ["http://a", "http://b"]).2 =
      [.fetch "http://a", .fetch "http://b", .sleep] ∧
    noAdjacentFetches
      [Bulk.UrlEv.fetch "http://a", Bulk.UrlEv.fetch "http://b",
        Bulk.UrlEv.sleep] = false := by
  constructor
  · decide
  · decide

/-- Witness for C9 at a concrete one-URL error-free run. -/
theorem claim_C9_witness :
    (∀ j m, (fun _ : Nat =>
        Bulk.ScrapeResult.ok { title := "t", content := "c" }) j ≠
      .err m) ∧
    noAdjacentFetches
      (Bulk.parse_url_list
        (fun _ => .ok { title := "t", content := "c" })
        ["http://a"]).2 = true := by
  refine ⟨fun j m h => Bulk.ScrapeResult.noConfusion h, ?_⟩
  exact claim_C9.1 (fun _ => .ok { title := "t", content := "c" })
    ["http://a"] (fun j m h => Bulk.ScrapeResult.noConfusion h)
